import Mathlib

/-!
Shallow embedding of `certbot/_internal/auto_server.py` (ACME server
auto-discovery from DNS CAA records) and verification of the frozen claims.

Modelling conventions:
* a Python byte string is a `List Nat` (each element one byte);
* a DNS name is its list of labels, with the trailing root label dropped,
  so the DNS root is `[]` and `parent` is `List.tail`;
* Python exceptions become `Except DiscoveryError`; the error constructors
  are named after the spec error kinds and correspond one-to-one to the
  `raise errors.Error(...)` sites in the source;
* CPython set semantics for `Issuer` values (identifier-only `__eq__` and
  `__hash__`) are modelled explicitly: set construction from a list keeps
  the first occurrence per identifier; `intersection_update(lst)` rebuilds
  the set from the elements of `lst` (CPython `set_intersection` adds the
  elements of the iterated argument) that have an identifier in the current set,
  first occurrence per identifier kept.  Set iteration order is
  hash-randomised in CPython, so it is modelled as an arbitrary permutation
  parameter;
* `dns.rdataset.Rdataset.processing_order`, called by the source on the
  located record set, shuffles the rdatas for CAA (dnspython default
  `_processing_order` is `random.shuffle`); it is likewise modelled as an
  arbitrary permutation parameter.
-/

namespace AutoServer

/-- One byte of a Python byte string. -/
abbrev Byte := Nat

/-- A Python byte string: its list of bytes. -/
abbrev Bytes := List Byte

/-- The ASCII whitespace bytes stripped by `bytes.strip()` (and by `int` on
byte strings): space, tab, LF, VT, FF, CR. -/
def isPyWS (c : Byte) : Bool :=
  c == 32 || c == 9 || c == 10 || c == 11 || c == 12 || c == 13

/-- Python `value.strip()`: drop leading and trailing ASCII whitespace. -/
def pyStrip (s : Bytes) : Bytes :=
  ((s.dropWhile isPyWS).reverse.dropWhile isPyWS).reverse

/-- Python `value.split(sep)` for a one-byte separator: split at every
occurrence; `b"".split(sep)` is `[b""]`, and the result is never empty. -/
def splitOnByte (sep : Byte) : Bytes → List Bytes
  | [] => [[]]
  | c :: rest =>
    let r := splitOnByte sep rest
    if c == sep then [] :: r
    else (c :: r.headI) :: r.tail

/-- Python `p.split(sep, 1)` for a one-byte separator: split at the first
occurrence only.  `(a, none)` models the one-element result `[p]` (no
separator present); `(a, some b)` models `[a, b]`. -/
def splitOnce (sep : Byte) : Bytes → Bytes × Option Bytes
  | [] => ([], none)
  | c :: rest =>
    if c == sep then ([], some rest)
    else
      let r := splitOnce sep rest
      (c :: r.1, r.2)

/-- An ASCII decimal digit byte. -/
def isDigitByte (c : Byte) : Bool := 48 ≤ c && c ≤ 57

/-- Accumulating scanner for the digit part of a Python integer literal:
after an initial digit, single underscores are allowed between digits. -/
def pyDigitsGo (acc : Nat) : Bytes → Option Nat
  | [] => some acc
  | 95 :: c :: rest =>
    if isDigitByte c then pyDigitsGo (acc * 10 + (c - 48)) rest else none
  | [95] => none
  | c :: rest =>
    if isDigitByte c then pyDigitsGo (acc * 10 + (c - 48)) rest else none

/-- The digit part of a Python integer literal: one or more ASCII digits
with optional single underscores between digits. -/
def pyDigits : Bytes → Option Nat
  | [] => none
  | c :: rest => if isDigitByte c then pyDigitsGo (c - 48) rest else none

/-- Python `int(s)` on a byte string: optional surrounding ASCII whitespace,
optional sign, base-10 digits (underscore separators allowed between
digits).  `none` models `ValueError`. -/
def pyIntBytes (s : Bytes) : Option Int :=
  match pyStrip s with
  | 43 :: rest => (pyDigits rest).map (fun n => (n : Int))
  | 45 :: rest => (pyDigits rest).map (fun n => -(n : Int))
  | rest => (pyDigits rest).map (fun n => (n : Int))

/-- A Python `dict` over byte-string keys, as an association list in
insertion order (CPython dicts preserve first-insertion order and update
the stored value in place on re-assignment). -/
abbrev PyDict := List (Bytes × Option Bytes)

/-- Python `d[k] = v`: update the value in place if the key is present,
otherwise append the new binding. -/
def dictInsert (k : Bytes) (v : Option Bytes) : PyDict → PyDict
  | [] => [(k, v)]
  | (k₁, v₁) :: rest =>
    if k₁ == k then (k₁, v) :: rest else (k₁, v₁) :: dictInsert k v rest

/-- Python `d[k]` lookup (first matching key; keys are unique by
construction). -/
def dictFind? (d : PyDict) (k : Bytes) : Option (Option Bytes) :=
  match d.find? (fun e => e.1 == k) with
  | some e => some e.2
  | none => none

/-- The byte string `b"priority"`. -/
def priorityKey : Bytes := [112, 114, 105, 111, 114, 105, 116, 121]

/-- The byte string `b"discovery"`. -/
def discoveryKey : Bytes := [100, 105, 115, 99, 111, 118, 101, 114, 121]

/-- The byte string `b"true"`. -/
def trueVal : Bytes := [116, 114, 117, 101]

/-- The byte string `b"issue"`. -/
def issueTag : Bytes := [105, 115, 115, 117, 101]

/-- The byte string `b"issuewild"`. -/
def issuewildTag : Bytes := [105, 115, 115, 117, 101, 119, 105, 108, 100]

/-- The parsed value of one CAA record: issuer identifier plus the property
dictionary (source dataclass `CAAIssue`). -/
structure CAAIssue where
  issuer : Bytes
  parameters : PyDict
deriving DecidableEq, Repr

/-- Source `CAAIssue.parse`: split the raw value on `;`, strip the first
segment as the issuer, and fold the remaining segments into the property
dict, splitting each on the first `=` only (no `=` stores a `none` value;
both sides stripped otherwise; later assignments overwrite earlier ones). -/
def CAAIssue.parse (value : Bytes) : CAAIssue :=
  let parts := splitOnByte 59 value
  let parameters := parts.tail.foldl
    (fun m p =>
      match splitOnce 61 p with
      | (a, none) => dictInsert (pyStrip a) none m
      | (a, some b) => dictInsert (pyStrip a) (some (pyStrip b)) m)
    []
  { issuer := pyStrip parts.headI, parameters := parameters }

/-- Source `CAAIssue.get_property`: the stored value if the tag is a key of
the dict (which may itself be `none` for a valueless property), the default
otherwise. -/
def CAAIssue.get_property (i : CAAIssue) (tag : Bytes)
    (default : Option Bytes) : Option Bytes :=
  match dictFind? i.parameters tag with
  | some v => v
  | none => default

/-- Source dataclass `Issuer`: identifier and resolved priority.  In the
source, `__eq__` and `__hash__` use the identifier alone; the Lean
structure keeps structural equality and the set algebra below compares
identifiers explicitly. -/
structure Issuer where
  issuer : Bytes
  priority : Int
deriving DecidableEq, Repr

/-- One CAA resource record as seen by the source: its tag and its value
(the source reads `r.tag` and `r.value` of each dnspython CAA rdata). -/
structure CAARecord where
  tag : Bytes
  value : Bytes
deriving DecidableEq, Repr

/-- The error outcomes of the source, named after the spec error kinds.
Each constructor corresponds to one family of `raise errors.Error(...)`
sites in `auto_server.py`. -/
inductive DiscoveryError where
  | dnsResolutionError
  | noCAARecordsError
  | invalidPriorityError
  | noCommonIssuersError
  | invalidIssuerEncodingError
deriving DecidableEq, Repr

/-- A DNS name as its list of labels, the trailing root label dropped: the
DNS root is `[]`, `dns.name.Name.parent()` is `List.tail`. -/
abbrev DnsName := List Bytes

/-- The wildcard label `b"*"`. -/
def wildLabel : Bytes := [42]

/-- Source `domain.is_wild()`: the leading label is the wildcard marker. -/
def is_wild (d : DnsName) : Bool :=
  match d with
  | [] => false
  | l :: _ => l == wildLabel

/-- The name at which the tree walk starts: the parent for a wildcard
domain, the domain itself otherwise. -/
def startName (d : DnsName) : DnsName :=
  if is_wild d then d.tail else d

/-- The DNS resolver collaborator: for a name, either a transport/protocol
failure (`Except.error`) or the CAA record set, `[]` being an explicit
empty answer (`raise_on_no_answer=False` with a `None` rrset). -/
abbrev Resolver := DnsName → Except Unit (List CAARecord)

/-- Source tree-walk loop (`while name != dns.name.root`): query the
current name; a non-empty answer ends the walk, an explicit empty answer
moves to the parent, a resolver failure aborts with the DNS resolution
error, and reaching the root without a non-empty answer yields the
no-CAA-records error (`if not rr`). -/
def caaWalk (R : Resolver) : DnsName → Except DiscoveryError (List CAARecord)
  | [] => .error .noCAARecordsError
  | l :: rest =>
    match R (l :: rest) with
    | .error _ => .error .dnsResolutionError
    | .ok [] => caaWalk R rest
    | .ok rr => .ok rr

/-- The names the tree-walk loop actually queries, in query order. -/
def walkQueried (R : Resolver) : DnsName → List DnsName
  | [] => []
  | l :: rest =>
    (l :: rest) ::
      match R (l :: rest) with
      | .error _ => []
      | .ok [] => walkQueried R rest
      | .ok _ => []

/-- Select a list of positions into a list: `applyPerm σ l` is the list of
elements of `l` at the positions of `σ` (out-of-range positions dropped).
When `σ` is a permutation of `List.range l.length` this is a permutation
of `l`; it models a nondeterministically ordered traversal (a
`random.shuffle`, or CPython set iteration order). -/
def applyPerm (σ : List Nat) (l : List α) : List α :=
  σ.filterMap (fun i => l.get? i)

/-- The proposition that `σ` is a permutation of the positions `0..n-1`. -/
abbrev IsPermOf (σ : List Nat) (n : Nat) : Prop :=
  σ.Perm (List.range n)

/-- The identity position list, used for the canonical (unshuffled)
execution. -/
def idPerm (n : Nat) : List Nat := List.range n

/-- The record set handed to the issuer selection code: the result of the walk
passed through `rr.processing_order()`, modelled as reading the records at
the positions `σ` (dnspython shuffles CAA rdatas, so `σ` is the
nondeterministic shuffle outcome for the length of the found set). -/
def handedRecords (R : Resolver) (σ : Nat → List Nat) (d : DnsName) :
    Except DiscoveryError (List CAARecord) :=
  match caaWalk R (startName d) with
  | .error e => .error e
  | .ok rr => .ok (applyPerm (σ rr.length) rr)

/-- The parsed `issuewild`-tagged sub-list of a record set, in record
order (source `issue_wild_set`). -/
def issueWildSet (rr : List CAARecord) : List CAAIssue :=
  (rr.filter (fun r => r.tag == issuewildTag)).map (fun r => CAAIssue.parse r.value)

/-- The parsed `issue`-tagged sub-list of a record set, in record order
(source `issue_set`). -/
def issueSet (rr : List CAARecord) : List CAAIssue :=
  (rr.filter (fun r => r.tag == issueTag)).map (fun r => CAAIssue.parse r.value)

/-- Source selection of `relevant_set`: a wildcard domain prefers the
non-empty `issuewild` sub-list, falling back to `issue`; a non-wildcard
domain uses `issue` only; an empty choice is the no-CAA-records error. -/
def selectRelevant (wild : Bool) (rr : List CAARecord) :
    Except DiscoveryError (List CAAIssue) :=
  if wild then
    if issueWildSet rr ≠ [] then .ok (issueWildSet rr)
    else if issueSet rr ≠ [] then .ok (issueSet rr)
    else .error .noCAARecordsError
  else
    if issueSet rr ≠ [] then .ok (issueSet rr)
    else .error .noCAARecordsError

/-- Source priority resolution for one surviving record:
`get_property(b"priority")` (default `None`) taken as 0 when it yields
`None`, otherwise it must `int`-parse to a value that is at least 1. -/
def resolvePriority (i : CAAIssue) : Except DiscoveryError Int :=
  match i.get_property priorityKey none with
  | none => .ok 0
  | some v =>
    match pyIntBytes v with
    | none => .error .invalidPriorityError
    | some n => if n < 1 then .error .invalidPriorityError else .ok n

/-- The source discovery filter condition for keeping a record:
`get_property(b"discovery", b"true") == b"true"` (the loop skips the
record when the comparison fails). -/
def discoveryIncluded (i : CAAIssue) : Bool :=
  i.get_property discoveryKey (some trueVal) == some trueVal

/-- Source `issuers`-building loop over `relevant_set`: skip records the
discovery filter excludes, abort on the first invalid priority, and emit
one `Issuer` per surviving record in record order. -/
def buildIssuers : List CAAIssue → Except DiscoveryError (List Issuer)
  | [] => .ok []
  | i :: rest =>
    if discoveryIncluded i then
      match resolvePriority i with
      | .error e => .error e
      | .ok p =>
        match buildIssuers rest with
        | .error e => .error e
        | .ok l => .ok ({ issuer := i.issuer, priority := p } :: l)
    else buildIssuers rest

/-- The whole per-domain body of the main loop of the source: tree walk from
the wildcard-adjusted start name, `processing_order` shuffle, sub-list
selection, discovery filtering and priority resolution. -/
def processDomain (R : Resolver) (σ : Nat → List Nat) (d : DnsName) :
    Except DiscoveryError (List Issuer) :=
  match handedRecords R σ d with
  | .error e => .error e
  | .ok rr =>
    match selectRelevant (is_wild d) rr with
    | .error e => .error e
    | .ok rel => buildIssuers rel

/-- The main loop of the source over `config.domains`: the per-domain issuer
lists in domain order, aborting at the first failing domain.  `i` is the
position of the domain, selecting the shuffle outcome `σs i` of that domain. -/
def processDomains (R : Resolver) (σs : Nat → Nat → List Nat) :
    Nat → List DnsName → Except DiscoveryError (List (List Issuer))
  | _, [] => .ok []
  | i, d :: ds =>
    match processDomain R (σs i) d with
    | .error e => .error e
    | .ok l =>
      match processDomains R σs (i + 1) ds with
      | .error e => .error e
      | .ok ls => .ok (l :: ls)

/-- Whether some member of `l` carries the identifier `id`, the comparison
that `Issuer.__eq__` and `Issuer.__hash__` perform in the source. -/
def containsIssuer (l : List Issuer) (id : Bytes) : Bool :=
  l.any (fun y => y.issuer == id)

/-- The element content of a CPython set built from a list of `Issuer`
values: one element per identifier, the first occurrence kept
(`set_add_entry` leaves an existing equal element in place).  Written as
structural recursion; filtering the recursive result gives the same
first-occurrence sublist as filtering the argument first. -/
def dedupByIssuer : List Issuer → List Issuer
  | [] => []
  | x :: xs => x :: (dedupByIssuer xs).filter (fun y => !(y.issuer == x.issuer))

/-- The element content of `running.intersection_update(new)` for a list
argument: CPython `set_intersection` iterates the argument and adds each
of ITS elements whose identifier is in the running set, first occurrence
per identifier kept — so surviving elements come from `new`, not from
`running`. -/
def pyIntersectList (running new : List Issuer) : List Issuer :=
  dedupByIssuer (new.filter (fun x => containsIssuer running x.issuer))

/-- The element content of `issuers_intersection` after the
intersection loop of the source: `none` models the initial `None` (no domains), the
list of the first domain seeds the set, later domains intersect into it. -/
def intersectFold : List (List Issuer) → Option (List Issuer)
  | [] => none
  | l :: ls => some (ls.foldl pyIntersectList (dedupByIssuer l))

/-- Stable insertion of an `Issuer` into a priority-sorted list, keeping
the inserted element before later elements of equal priority. -/
def insertByPriority (x : Issuer) : List Issuer → List Issuer
  | [] => [x]
  | y :: ys =>
    if x.priority ≤ y.priority then x :: y :: ys
    else y :: insertByPriority x ys

/-- Python `sorted(s, key=lambda i: i.priority)`: a stable ascending sort
by priority (stable sorts agree, so insertion sort models Timsort). -/
def sortedByPriority : List Issuer → List Issuer
  | [] => []
  | x :: xs => insertByPriority x (sortedByPriority xs)

/-- The final projection of the source: the identifiers of the
elements, read in the sort order. -/
def finalOutput (elems : List Issuer) : List Bytes :=
  (sortedByPriority elems).map (fun i => i.issuer)

/-- Source `auto_discover_server`, with the nondeterministic orders made
explicit: `σs i` is the `processing_order` shuffle outcome of domain `i` and
`π n` is the iteration order of the final `n`-element intersection set.
The per-domain loop, the intersection fold, the emptiness check
(`if not issuers_intersection`, covering both `None` and the empty set)
and the final sort-and-project stage follow the source line by line. -/
def autoDiscoverWith (R : Resolver) (σs : Nat → Nat → List Nat)
    (π : Nat → List Nat) (domains : List DnsName) :
    Except DiscoveryError (List Bytes) :=
  match processDomains R σs 0 domains with
  | .error e => .error e
  | .ok ls =>
    match intersectFold ls with
    | none => .error .noCommonIssuersError
    | some elems =>
      if elems = [] then .error .noCommonIssuersError
      else .ok (finalOutput (applyPerm (π elems.length) elems))

/-- Source `auto_discover_server` in its canonical execution: identity
shuffles and identity set-iteration order. -/
def auto_discover_server (R : Resolver) (domains : List DnsName) :
    Except DiscoveryError (List Bytes) :=
  autoDiscoverWith R (fun _ => idPerm) idPerm domains

/-- A byte that strict ASCII decoding accepts. -/
def isAsciiByte (c : Byte) : Bool := c ≤ 127

/-- ASCII lower-casing of one byte, what `str.lower()` does to each
character of an ASCII-decoded string. -/
def asciiLower (c : Byte) : Byte :=
  if 65 ≤ c ∧ c ≤ 90 then c + 32 else c

/-- The byte string `b"https://"`. -/
def urlHead : Bytes := [104, 116, 116, 112, 115, 58, 47, 47]

/-- The byte string `b"/.well-known/acme"`. -/
def urlTail : Bytes :=
  [47, 46, 119, 101, 108, 108, 45, 107, 110, 111, 119, 110, 47, 97, 99, 109, 101]

/-- Source `issuer_to_directory`: strict-ASCII decode (failure is the
invalid-encoding error), lower-case, and wrap in the fixed URL form. -/
def issuer_to_directory (issuer : Bytes) : Except DiscoveryError Bytes :=
  if issuer.all isAsciiByte then
    .ok (urlHead ++ issuer.map asciiLower ++ urlTail)
  else .error .invalidIssuerEncodingError

/-- The priority that `resolvePriority` computes when it succeeds (0 when
it fails; used only under a success hypothesis). -/
def priorityOf (i : CAAIssue) : Int :=
  match resolvePriority i with
  | .ok p => p
  | .error _ => 0

/-- Joining a segment list with a one-byte separator, the inverse of
`splitOnByte`. -/
def joinWithByte (sep : Byte) : List Bytes → Bytes
  | [] => []
  | [p] => p
  | p :: ps => p ++ sep :: joinWithByte sep (ps)

/-- The key and value one property segment contributes, as the source parse
loop computes them: split on the first `=`, strip the key, strip the value
when present. -/
def segKV (p : Bytes) : Bytes × Option Bytes :=
  match splitOnce 61 p with
  | (a, none) => (pyStrip a, none)
  | (a, some b) => (pyStrip a, some (pyStrip b))

/-- The value of the LAST segment assigning the given property name, the
reference semantics of repeated dict assignment (later segments win). -/
def lastAssign (name : Bytes) : List Bytes → Option (Option Bytes)
  | [] => none
  | p :: ps =>
    match lastAssign name ps with
    | some v => some v
    | none => if (segKV p).1 == name then some (segKV p).2 else none

/-- The error condition of claim C5 transcribed literally: the `priority`
property is present (possibly with a null value, which cannot parse as an
integer) and its value fails to parse as an integer or parses below 1. -/
def claimedPriorityFailure (i : CAAIssue) : Bool :=
  match dictFind? i.parameters priorityKey with
  | none => false
  | some none => true
  | some (some b) =>
    match pyIntBytes b with
    | none => true
    | some n => decide (n < 1)

/-- A two-record CAA answer fixture for claim C3. -/
def recC3a : CAARecord := { tag := issueTag, value := [97, 46, 99, 97] }

/-- A second record fixture for claim C3. -/
def recC3b : CAARecord := { tag := issueTag, value := [98, 46, 99, 97] }

/-- The queried name fixture for claim C3. -/
def dC3 : DnsName := [[101, 120], [99, 111, 109]]

/-- A resolver fixture for claim C3: two records at `dC3`, empty answers
elsewhere. -/
def RC3 : Resolver := fun n =>
  if n == [[101, 120], [99, 111, 109]] then .ok [recC3a, recC3b] else .ok []

/-- A resolver fixture for claim C4: one record at the one-label name,
empty answers elsewhere. -/
def RC4 : Resolver := fun n =>
  if n == [[101, 120]] then .ok [{ tag := issueTag, value := [99, 97] }]
  else .ok []

/-- A two-record CAA answer fixture for claim C2 (two issuers, both with
the default priority 0, a tie). -/
def recC2a : CAARecord := { tag := issueTag, value := [97, 46, 99, 97] }

/-- The second record fixture for claim C2. -/
def recC2b : CAARecord := { tag := issueTag, value := [98, 46, 99, 97] }

/-- The queried name fixture for claim C2. -/
def dC2 : DnsName := [[101, 120], [99, 111, 109]]

/-- A resolver fixture for claim C2. -/
def RC2 : Resolver := fun n =>
  if n == [[101, 120], [99, 111, 109]] then .ok [recC2a, recC2b] else .ok []

section Lemmas

/-- Reading a list at the positions `0, 1, ..., length - 1` returns it. -/
lemma filterMap_get_range (l : List α) :
    (List.range l.length).filterMap (fun i => l.get? i) = l := by
  induction l with
  | nil => rfl
  | cons a t ih =>
    rw [List.length_cons, List.range_succ_eq_map, List.filterMap_cons,
      List.filterMap_map]
    have h : ((fun i => (a :: t).get? i) ∘ Nat.succ) = (fun i => t.get? i) := rfl
    rw [h, ih]
    rfl

/-- Reading a list at a permutation of its position range permutes it. -/
lemma applyPerm_perm (σ : List Nat) (l : List α) (h : IsPermOf σ l.length) :
    (applyPerm σ l).Perm l := by
  have h₁ := List.Perm.filterMap (fun i => l.get? i) h
  rwa [filterMap_get_range] at h₁

/-- Stable insertion permutes to consing. -/
lemma perm_insertByPriority (x : Issuer) (l : List Issuer) :
    (insertByPriority x l).Perm (x :: l) := by
  induction l with
  | nil => exact List.Perm.refl _
  | cons y ys ih =>
    by_cases h : x.priority ≤ y.priority
    · rw [insertByPriority, if_pos h]
    · rw [insertByPriority, if_neg h]
      exact (ih.cons y).trans (List.Perm.swap x y ys)

/-- The stable sort permutes its input. -/
lemma perm_sortedByPriority (l : List Issuer) :
    (sortedByPriority l).Perm l := by
  induction l with
  | nil => exact List.Perm.refl _
  | cons x xs ih =>
    exact (perm_insertByPriority x (sortedByPriority xs)).trans (ih.cons x)

/-- Stable insertion preserves ascending priority order. -/
lemma sorted_insertByPriority (x : Issuer) (l : List Issuer)
    (h : List.Sorted (fun a b : Issuer => a.priority ≤ b.priority) l) :
    List.Sorted (fun a b : Issuer => a.priority ≤ b.priority)
      (insertByPriority x l) := by
  induction l with
  | nil => simp [insertByPriority]
  | cons y ys ih =>
    rw [List.sorted_cons] at h
    by_cases hxy : x.priority ≤ y.priority
    · rw [insertByPriority, if_pos hxy, List.sorted_cons]
      refine ⟨?_, List.sorted_cons.mpr h⟩
      intro b hb
      rcases List.mem_cons.mp hb with rfl | hb₁
      · exact hxy
      · exact le_trans hxy (h.1 b hb₁)
    · rw [insertByPriority, if_neg hxy, List.sorted_cons]
      refine ⟨?_, ih h.2⟩
      intro b hb
      rcases List.mem_cons.mp ((perm_insertByPriority x ys).mem_iff.mp hb) with
        rfl | hb₁
      · exact le_of_not_le hxy
      · exact h.1 b hb₁

/-- The stable sort produces an ascending-priority list. -/
lemma sorted_sortedByPriority (l : List Issuer) :
    List.Sorted (fun a b : Issuer => a.priority ≤ b.priority)
      (sortedByPriority l) := by
  induction l with
  | nil => simp [sortedByPriority]
  | cons x xs ih => exact sorted_insertByPriority x (sortedByPriority xs) ih

/-- Deduplication only keeps elements of the input. -/
lemma mem_dedupByIssuer {x : Issuer} {l : List Issuer}
    (h : x ∈ dedupByIssuer l) : x ∈ l := by
  induction l with
  | nil => simp [dedupByIssuer] at h
  | cons y ys ih =>
    rw [dedupByIssuer] at h
    rcases List.mem_cons.mp h with rfl | h₁
    · exact List.mem_cons_self _ _
    · exact List.mem_cons_of_mem y (ih (List.mem_filter.mp h₁).1)

/-- Deduplication keeps exactly the identifiers of the input. -/
lemma exists_mem_dedupByIssuer_iff (l : List Issuer) (id : Bytes) :
    (∃ y ∈ dedupByIssuer l, y.issuer = id) ↔ ∃ y ∈ l, y.issuer = id := by
  induction l with
  | nil => simp [dedupByIssuer]
  | cons x xs ih =>
    constructor
    · rintro ⟨y, hy, rfl⟩
      exact ⟨y, mem_dedupByIssuer hy, rfl⟩
    · rintro ⟨y, hy, rfl⟩
      rcases List.mem_cons.mp hy with rfl | hy₁
      · exact ⟨y, List.mem_cons_self _ _, rfl⟩
      · by_cases hx : y.issuer = x.issuer
        · exact ⟨x, List.mem_cons_self _ _, hx.symm⟩
        · rcases ih.mpr ⟨y, hy₁, rfl⟩ with ⟨z, hz, hz₁⟩
          refine ⟨z, ?_, hz₁⟩
          rw [dedupByIssuer]
          refine List.mem_cons_of_mem x (List.mem_filter.mpr ⟨hz, ?_⟩)
          simp only [Bool.not_eq_eq_eq_not, Bool.not_true, beq_eq_false_iff_ne,
            ne_eq]
          rw [hz₁]
          exact hx

/-- Membership of an identifier in a list of issuers, propositionally. -/
lemma containsIssuer_iff (l : List Issuer) (id : Bytes) :
    containsIssuer l id = true ↔ ∃ y ∈ l, y.issuer = id := by
  simp [containsIssuer, List.any_eq_true, beq_iff_eq]

/-- Intersection members come from the second argument and have an
identifier present in the first. -/
lemma mem_pyIntersectList {x : Issuer} {running new : List Issuer}
    (h : x ∈ pyIntersectList running new) :
    x ∈ new ∧ containsIssuer running x.issuer = true := by
  have h₁ := mem_dedupByIssuer h
  have h₂ := List.mem_filter.mp h₁
  exact ⟨h₂.1, h₂.2⟩

/-- An identifier survives the intersection step exactly when it occurs on
both sides. -/
lemma containsIssuer_pyIntersectList (running new : List Issuer) (id : Bytes) :
    containsIssuer (pyIntersectList running new) id = true ↔
      containsIssuer running id = true ∧ containsIssuer new id = true := by
  rw [containsIssuer_iff, pyIntersectList, exists_mem_dedupByIssuer_iff]
  constructor
  · rintro ⟨y, hy, rfl⟩
    have h₂ := List.mem_filter.mp hy
    exact ⟨h₂.2, (containsIssuer_iff new y.issuer).mpr ⟨y, h₂.1, rfl⟩⟩
  · rintro ⟨hr, hn⟩
    rcases (containsIssuer_iff new id).mp hn with ⟨y, hy, rfl⟩
    exact ⟨y, List.mem_filter.mpr ⟨hy, hr⟩, rfl⟩

/-- Intersecting the empty running set yields the empty set. -/
lemma pyIntersectList_nil_left (new : List Issuer) :
    pyIntersectList [] new = [] := by
  have h : new.filter (fun x => containsIssuer [] x.issuer) = [] := by
    simp [containsIssuer]
  rw [pyIntersectList, h]
  rfl

/-- Once the running intersection is empty it stays empty. -/
lemma foldl_pyIntersectList_nil (ls : List (List Issuer)) :
    List.foldl pyIntersectList [] ls = [] := by
  induction ls with
  | nil => rfl
  | cons l ls ih => rw [List.foldl_cons, pyIntersectList_nil_left]; exact ih

/-- A domain with an empty issuer list forces the whole fold to the empty
set. -/
lemma foldl_pyIntersectList_of_mem_nil (ls : List (List Issuer))
    (acc : List Issuer) (h : [] ∈ ls) :
    List.foldl pyIntersectList acc ls = [] := by
  induction ls generalizing acc with
  | nil => simp at h
  | cons l ls ih =>
    rcases List.mem_cons.mp h with h₁ | h₁
    · rw [List.foldl_cons, ← h₁]
      exact foldl_pyIntersectList_nil ls
    · rw [List.foldl_cons]
      exact ih _ h₁

/-- Every name the walk queries is at most as long as the start name. -/
lemma walkQueried_length {R : Resolver} {n m : DnsName}
    (h : m ∈ walkQueried R n) : m.length ≤ n.length := by
  induction n with
  | nil => simp [walkQueried] at h
  | cons l rest ih =>
    rw [walkQueried] at h
    rcases List.mem_cons.mp h with rfl | h₁
    · exact le_refl _
    · rcases hR : R (l :: rest) with e | rr
      · rw [hR] at h₁; simp at h₁
      · rcases rr with _ | ⟨r, rs⟩
        · rw [hR] at h₁
          exact le_trans (ih h₁) (Nat.le_succ _)
        · rw [hR] at h₁; simp at h₁

/-- A walk all of whose queries get explicit empty answers exhausts the
hierarchy and fails with the no-CAA-records error. -/
lemma caaWalk_exhausted {R : Resolver} (n : DnsName)
    (h : ∀ m ∈ walkQueried R n, R m = .ok []) :
    caaWalk R n = .error .noCAARecordsError := by
  induction n with
  | nil => rfl
  | cons l rest ih =>
    have hR : R (l :: rest) = .ok [] := by
      refine h (l :: rest) ?_
      rw [walkQueried]
      exact List.mem_cons_self _ _
    rw [caaWalk, hR]
    refine ih (fun m hm => h m ?_)
    rw [walkQueried, hR]
    exact List.mem_cons_of_mem _ hm

/-- When no surviving record has an invalid priority, the issuer-building
loop is the discovery filter followed by priority projection, in record
order. -/
lemma buildIssuers_eq_map (rel : List CAAIssue)
    (h : ∀ i ∈ rel, discoveryIncluded i = true → (resolvePriority i).isOk = true) :
    buildIssuers rel =
      .ok ((rel.filter discoveryIncluded).map
        (fun i => { issuer := i.issuer, priority := priorityOf i })) := by
  induction rel with
  | nil => rfl
  | cons i rest ih =>
    have ih₁ := ih (fun j hj => h j (List.mem_cons_of_mem i hj))
    by_cases hd : discoveryIncluded i
    · have hp := h i (List.mem_cons_self _ _) hd
      rcases hok : resolvePriority i with e | p
      · rw [hok] at hp; simp [Except.isOk, Except.toBool] at hp
      · rw [buildIssuers, if_pos hd, hok, ih₁]
        simp [List.filter_cons, hd, priorityOf, hok]
    · rw [buildIssuers, if_neg hd, ih₁]
      simp [List.filter_cons, hd]

/-- Split results are non-empty. -/
lemma splitOnByte_ne_nil (sep : Byte) (s : Bytes) : splitOnByte sep s ≠ [] := by
  cases s with
  | nil => simp [splitOnByte]
  | cons c rest =>
    rw [splitOnByte]
    by_cases h : c == sep
    · rw [if_pos h]; simp
    · rw [if_neg h]; simp

/-- Prepending a byte to the first segment prepends it to the join. -/
lemma joinWithByte_cons_head (sep c : Byte) (r : List Bytes) (h : r ≠ []) :
    joinWithByte sep ((c :: r.headI) :: r.tail) = c :: joinWithByte sep r := by
  cases r with
  | nil => exact absurd rfl h
  | cons p ps =>
    cases ps with
    | nil => rfl
    | cons q qs => rfl

/-- Joining the split on a byte with that byte restores the input. -/
lemma joinWithByte_splitOnByte (sep : Byte) (s : Bytes) :
    joinWithByte sep (splitOnByte sep s) = s := by
  induction s with
  | nil => rfl
  | cons c rest ih =>
    rw [splitOnByte]
    by_cases h : c == sep
    · rw [if_pos h]
      have hc : c = sep := eq_of_beq h
      cases hr : splitOnByte sep rest with
      | nil => exact absurd hr (splitOnByte_ne_nil sep rest)
      | cons p ps =>
        rw [hr] at ih
        calc joinWithByte sep ([] :: p :: ps)
            = sep :: joinWithByte sep (p :: ps) := rfl
          _ = sep :: rest := by rw [ih]
          _ = c :: rest := by rw [hc]
    · rw [if_neg h]
      rw [joinWithByte_cons_head sep c _ (splitOnByte_ne_nil sep rest), ih]

/-- No segment of the split contains the separator. -/
lemma not_mem_splitOnByte (sep : Byte) (s : Bytes) :
    ∀ p ∈ splitOnByte sep s, sep ∉ p := by
  induction s with
  | nil =>
    intro p hp
    rw [splitOnByte] at hp
    rcases List.mem_cons.mp hp with rfl | h₁
    · simp
    · simp at h₁
  | cons c rest ih =>
    intro p hp
    rw [splitOnByte] at hp
    by_cases h : c == sep
    · rw [if_pos h] at hp
      rcases List.mem_cons.mp hp with rfl | h₁
      · simp
      · exact ih p h₁
    · rw [if_neg h] at hp
      have hc : c ≠ sep := by
        intro hcc; rw [hcc] at h; simp at h
      rcases List.mem_cons.mp hp with rfl | h₁
      · intro hmem
        rcases List.mem_cons.mp hmem with h₂ | h₂
        · exact hc h₂.symm
        · rcases hr : splitOnByte sep rest with _ | ⟨q, qs⟩
          · exact absurd hr (splitOnByte_ne_nil sep rest)
          · have hq : (splitOnByte sep rest).headI ∈ splitOnByte sep rest := by
              rw [hr]; exact List.mem_cons_self _ _
            exact ih _ hq h₂
      · exact ih p (List.mem_of_mem_tail h₁)

/-- The first-occurrence split either reports the separator absent and
returns the input, or cuts the input at its first separator occurrence, so
the remainder may itself contain the separator. -/
lemma splitOnce_spec (sep : Byte) (s : Bytes) :
    (splitOnce sep s = (s, none) ∧ sep ∉ s) ∨
      (∃ a b, splitOnce sep s = (a, some b) ∧ s = a ++ sep :: b ∧ sep ∉ a) := by
  induction s with
  | nil => exact Or.inl ⟨rfl, by simp⟩
  | cons c rest ih =>
    by_cases h : c == sep
    · have hc : c = sep := eq_of_beq h
      refine Or.inr ⟨[], rest, ?_, ?_, by simp⟩
      · rw [splitOnce, if_pos h]
      · rw [hc]; rfl
    · have hc : c ≠ sep := by
        intro hcc; rw [hcc] at h; simp at h
      rcases ih with ⟨h₁, h₂⟩ | ⟨a, b, h₁, h₂, h₃⟩
      · refine Or.inl ⟨?_, ?_⟩
        · rw [splitOnce, if_neg h, h₁]
        · intro hmem
          rcases List.mem_cons.mp hmem with h₃ | h₃
          · exact hc h₃.symm
          · exact h₂ h₃
      · refine Or.inr ⟨c :: a, b, ?_, ?_, ?_⟩
        · rw [splitOnce, if_neg h, h₁]
        · rw [List.cons_append, ← h₂]
        · intro hmem
          rcases List.mem_cons.mp hmem with h₄ | h₄
          · exact hc h₄.symm
          · exact h₃ h₄

/-- Lookup in a one-step extended dict: the head key shadows the rest. -/
lemma dictFind?_cons (k₂ : Bytes) (v₂ : Option Bytes) (m : PyDict)
    (k₁ : Bytes) :
    dictFind? ((k₂, v₂) :: m) k₁ =
      if k₂ = k₁ then some v₂ else dictFind? m k₁ := by
  by_cases h : k₂ = k₁
  · subst h
    simp [dictFind?, List.find?]
  · have hbeq : (k₂ == k₁) = false := beq_eq_false_iff_ne.mpr h
    simp [dictFind?, List.find?, hbeq, h]

/-- Looking up after a dict assignment: the assigned key reads the new
value, any other key reads the old dict. -/
lemma dictFind?_dictInsert (k : Bytes) (v : Option Bytes) (m : PyDict)
    (k₁ : Bytes) :
    dictFind? (dictInsert k v m) k₁ =
      if k₁ = k then some v else dictFind? m k₁ := by
  induction m with
  | nil =>
    rw [dictInsert, dictFind?_cons]
    by_cases h : k = k₁
    · rw [if_pos h, if_pos h.symm]
    · rw [if_neg h, if_neg (fun hh => h hh.symm)]
  | cons e m ih =>
    rcases e with ⟨k₂, v₂⟩
    rw [dictInsert]
    by_cases h₂ : k₂ = k
    · rw [if_pos (beq_iff_eq.mpr h₂), dictFind?_cons, dictFind?_cons]
      by_cases h : k₂ = k₁
      · rw [if_pos h, if_pos (h.symm.trans h₂)]
      · rw [if_neg h, if_neg h,
          if_neg (fun hh : k₁ = k => h (h₂.symm ▸ hh.symm))]
    · rw [if_neg (fun hh : (k₂ == k) = true => h₂ (eq_of_beq hh)),
        dictFind?_cons, ih, dictFind?_cons]
      by_cases h : k₂ = k₁
      · rw [if_pos h, if_pos h,
          if_neg (fun hh : k₁ = k => h₂ (h.symm ▸ hh))]
      · rw [if_neg h, if_neg h]

/-- Folding dict assignments over segments reads back the last assignment
to a name, falling back to the starting dict. -/
lemma dictFind?_foldl_segs (segs : List Bytes) (m : PyDict) (name : Bytes) :
    dictFind? (segs.foldl (fun m₁ p => dictInsert (segKV p).1 (segKV p).2 m₁) m)
        name =
      match lastAssign name segs with
      | some v => some v
      | none => dictFind? m name := by
  induction segs generalizing m with
  | nil => rfl
  | cons p ps ih =>
    rw [List.foldl_cons, lastAssign, ih]
    rcases h : lastAssign name ps with _ | v
    · simp only
      rw [dictFind?_dictInsert]
      by_cases hk : name = (segKV p).1
      · rw [if_pos hk, if_pos (beq_iff_eq.mpr hk.symm)]
      · rw [if_neg hk,
          if_neg (fun hh : ((segKV p).1 == name) = true => hk (eq_of_beq hh).symm)]
    · simp only

/-- The fold the parser runs is dict assignment of the stripped key-value
of each segment. -/
lemma parse_foldl_eq (segs : List Bytes) :
    segs.foldl
        (fun m p =>
          match splitOnce 61 p with
          | (a, none) => dictInsert (pyStrip a) none m
          | (a, some b) => dictInsert (pyStrip a) (some (pyStrip b)) m)
        [] =
      segs.foldl (fun m₁ p => dictInsert (segKV p).1 (segKV p).2 m₁) [] := by
  have h : (fun (m : PyDict) (p : Bytes) =>
      match splitOnce 61 p with
      | (a, none) => dictInsert (pyStrip a) none m
      | (a, some b) => dictInsert (pyStrip a) (some (pyStrip b)) m) =
      (fun m₁ p => dictInsert (segKV p).1 (segKV p).2 m₁) := by
    funext m p
    rcases hp : splitOnce 61 p with ⟨a, v⟩
    cases v with
    | none => simp [segKV, hp]
    | some b => simp [segKV, hp]
  rw [h]

/-- Property lookup on a parsed record is the last assignment among the
segments after the issuer segment. -/
lemma dictFind?_parse (s name : Bytes) :
    dictFind? (CAAIssue.parse s).parameters name =
      lastAssign name ((splitOnByte 59 s).tail) := by
  show dictFind?
      (((splitOnByte 59 s).tail).foldl
        (fun m p =>
          match splitOnce 61 p with
          | (a, none) => dictInsert (pyStrip a) none m
          | (a, some b) => dictInsert (pyStrip a) (some (pyStrip b)) m)
        []) name = _
  rw [parse_foldl_eq, dictFind?_foldl_segs]
  rcases h : lastAssign name ((splitOnByte 59 s).tail) with _ | v
  · rfl
  · rfl

end Lemmas

section Claims

/-- C1 counterexample: two domains both authorize `ca1.example` with
priorities 5 and 1 in domain order; the claim says the final running set
carries priority 5, but the intersection retains the element of the later
list, so the set is exactly the priority-1 element and the priority-5
element is not in it. -/
theorem C1_counterexample :
    intersectFold
        [[{ issuer := [99, 97, 49, 46, 101, 120], priority := 5 }],
          [{ issuer := [99, 97, 49, 46, 101, 120], priority := 1 }]] =
      some [{ issuer := [99, 97, 49, 46, 101, 120], priority := 1 }] ∧
    ({ issuer := [99, 97, 49, 46, 101, 120], priority := 5 } : Issuer) ∉
      [({ issuer := [99, 97, 49, 46, 101, 120], priority := 1 } : Issuer)] :=
  ⟨rfl, by decide⟩

/-- C1 (amended): a running-set member survives the intersection with a
later domain iff some issuer with the same identifier appears in that
list, but the surviving element is taken from the LATER list (CPython
`intersection_update` re-adds the elements of its argument), so for two
domains authorizing the same identifier with priorities p1 and p2 in
domain order the final set carries p2, not p1. -/
theorem C1_intersection_priority (id : Bytes) (p₁ p₂ : Int) :
    intersectFold [[{ issuer := id, priority := p₁ }],
        [{ issuer := id, priority := p₂ }]] =
      some [{ issuer := id, priority := p₂ }] ∧
    (∀ running new x, x ∈ pyIntersectList running new →
      x ∈ new ∧ containsIssuer running x.issuer = true) ∧
    (∀ running new id₁,
      containsIssuer (pyIntersectList running new) id₁ = true ↔
        containsIssuer running id₁ = true ∧ containsIssuer new id₁ = true) := by
  refine ⟨?_, fun running new x hx => mem_pyIntersectList hx,
    fun running new id₁ => containsIssuer_pyIntersectList running new id₁⟩
  simp [intersectFold, dedupByIssuer, pyIntersectList, containsIssuer]

/-- C1 witness: the amended survival rule at a concrete two-list input. -/
theorem C1_intersection_priority_witness :
    ({ issuer := [99, 97, 49, 46, 101, 120], priority := 1 } : Issuer) ∈
        [({ issuer := [99, 97, 49, 46, 101, 120], priority := 1 } : Issuer)] ∧
      containsIssuer [{ issuer := [99, 97, 49, 46, 101, 120], priority := 5 }]
          [99, 97, 49, 46, 101, 120] = true :=
  (C1_intersection_priority [99, 97, 49, 46, 101, 120] 5 1).2.1
    [{ issuer := [99, 97, 49, 46, 101, 120], priority := 5 }]
    [{ issuer := [99, 97, 49, 46, 101, 120], priority := 1 }]
    { issuer := [99, 97, 49, 46, 101, 120], priority := 1 } (by decide)

/-- C3 counterexample: the code passes the located record set through
`processing_order`, which shuffles it; under the permissible shuffle
outcome `[1, 0]` the set handed to the selector is the reverse of the set
the resolver returned, so the handed set is NOT the returned set in
returned order. -/
theorem C3_counterexample :
    IsPermOf [1, 0] 2 ∧
    caaWalk RC3 (startName dC3) = .ok [recC3a, recC3b] ∧
    handedRecords RC3 (fun _ => [1, 0]) dC3 = .ok [recC3b, recC3a] ∧
    [recC3b, recC3a] ≠ [recC3a, recC3b] :=
  ⟨by decide, rfl, rfl, by decide⟩

/-- C3 (amended): the record set handed to the issuer selector is
`processing_order` applied to the set the walk found: a permutation of the
returned records (same records, order not preserved; dnspython shuffles
CAA rdatas). -/
theorem C3_processing_order (R : Resolver) (σ : Nat → List Nat) (d : DnsName)
    (rr : List CAARecord) (h : caaWalk R (startName d) = .ok rr)
    (hσ : IsPermOf (σ rr.length) rr.length) :
    handedRecords R σ d = .ok (applyPerm (σ rr.length) rr) ∧
    (applyPerm (σ rr.length) rr).Perm rr := by
  constructor
  · rw [handedRecords, h]
  · exact applyPerm_perm _ _ hσ

/-- C3 witness: the amended statement at the concrete fixture. -/
theorem C3_processing_order_witness :
    handedRecords RC3 (fun _ => [1, 0]) dC3 =
        .ok (applyPerm [1, 0] [recC3a, recC3b]) ∧
      (applyPerm [1, 0] [recC3a, recC3b]).Perm [recC3a, recC3b] :=
  C3_processing_order RC3 (fun _ => [1, 0]) dC3 [recC3a, recC3b] rfl (by decide)

/-- C4: the walk starts at the parent for a wildcard domain and at the
domain otherwise; an explicit empty answer strips the leftmost label and
retries at the parent; a transport failure raises the DNS resolution error
immediately; the walk stops at the first non-empty record set; exhausting
the hierarchy to the root raises the no-CAA-records error; and the
wildcard name itself is never queried. -/
theorem C4_tree_walk (R : Resolver) :
    (∀ d : DnsName, is_wild d = true → startName d = d.tail) ∧
    (∀ d : DnsName, is_wild d = false → startName d = d) ∧
    (∀ l rest, R (l :: rest) = .ok [] →
      caaWalk R (l :: rest) = caaWalk R rest) ∧
    (∀ l rest e, R (l :: rest) = .error e →
      caaWalk R (l :: rest) = .error .dnsResolutionError) ∧
    (∀ l rest rr, R (l :: rest) = .ok rr → rr ≠ [] →
      caaWalk R (l :: rest) = .ok rr) ∧
    caaWalk R [] = .error .noCAARecordsError ∧
    (∀ n, (∀ m ∈ walkQueried R n, R m = .ok []) →
      caaWalk R n = .error .noCAARecordsError) ∧
    (∀ d : DnsName, is_wild d = true → d ∉ walkQueried R (startName d)) := by
  refine ⟨?_, ?_, ?_, ?_, ?_, rfl, fun n h => caaWalk_exhausted n h, ?_⟩
  · intro d hd
    rw [startName, if_pos hd]
  · intro d hd
    rw [startName, if_neg (by simp [hd])]
  · intro l rest h
    rw [caaWalk, h]
  · intro l rest e h
    rw [caaWalk, h]
  · intro l rest rr h hne
    rw [caaWalk, h]
    cases rr with
    | nil => exact absurd rfl hne
    | cons r rs => rfl
  · intro d hd
    cases d with
    | nil => simp [is_wild] at hd
    | cons l t =>
      rw [startName, if_pos hd]
      intro hmem
      have h₁ := walkQueried_length hmem
      rw [List.tail_cons, List.length_cons] at h₁
      omega

/-- C4 witness: the empty-answer step of the walk at a concrete name. -/
theorem C4_tree_walk_witness :
    caaWalk RC4 [[119], [101, 120]] = caaWalk RC4 [[101, 120]] :=
  (C4_tree_walk RC4).2.2.1 [119] [[101, 120]] rfl

/-- C5 counterexample: the record value `b"ca.example;priority"` stores the
priority property with a null value, so the property IS present and its
value does not parse as an integer, yet the code resolves priority 0 and
accepts, refuting the claimed iff. -/
theorem C5_counterexample :
    dictFind?
        (CAAIssue.parse
          [99, 97, 46, 101, 120, 97, 109, 112, 108, 101, 59,
            112, 114, 105, 111, 114, 105, 116, 121]).parameters priorityKey =
      some none ∧
    resolvePriority
        (CAAIssue.parse
          [99, 97, 46, 101, 120, 97, 109, 112, 108, 101, 59,
            112, 114, 105, 111, 114, 105, 116, 121]) = .ok 0 ∧
    ¬ ((resolvePriority
          (CAAIssue.parse
            [99, 97, 46, 101, 120, 97, 109, 112, 108, 101, 59,
              112, 114, 105, 111, 114, 105, 116, 121])).isOk = false ↔
        claimedPriorityFailure
            (CAAIssue.parse
              [99, 97, 46, 101, 120, 97, 109, 112, 108, 101, 59,
                112, 114, 105, 111, 114, 105, 116, 121]) = true) :=
  ⟨rfl, rfl, by decide⟩

/-- C5 (amended): priority resolution fails (always with the
invalid-priority error) iff `get_property(b"priority")` yields a NON-NULL
value that fails to parse as an integer or parses below 1; a record whose
priority property is absent, or present with a null value, resolves to
priority 0 and is accepted. -/
theorem C5_priority_rule (i : CAAIssue) :
    ((resolvePriority i).isOk = false ↔
      ∃ b, i.get_property priorityKey none = some b ∧
        (pyIntBytes b = none ∨ ∃ n, pyIntBytes b = some n ∧ n < 1)) ∧
    (i.get_property priorityKey none = none → resolvePriority i = .ok 0) ∧
    ((resolvePriority i).isOk = false →
      resolvePriority i = .error .invalidPriorityError) := by
  refine ⟨?_, ?_, ?_⟩
  · rcases h : i.get_property priorityKey none with _ | b
    · simp [resolvePriority, h, Except.isOk, Except.toBool]
    · rcases hp : pyIntBytes b with _ | n
      · simp [resolvePriority, h, hp, Except.isOk, Except.toBool]
      · by_cases hn : n < 1
        · simp [resolvePriority, h, hp, hn, Except.isOk, Except.toBool]
        · simp [resolvePriority, h, hp, hn, Except.isOk, Except.toBool]
  · intro h
    simp [resolvePriority, h]
  · intro h
    rcases h₀ : i.get_property priorityKey none with _ | b
    · simp [resolvePriority, h₀, Except.isOk, Except.toBool] at h
    · rcases hp : pyIntBytes b with _ | n
      · simp [resolvePriority, h₀, hp]
      · by_cases hn : n < 1
        · simp [resolvePriority, h₀, hp, hn]
        · simp [resolvePriority, h₀, hp, hn, Except.isOk, Except.toBool] at h

/-- C5 witness: a record with no priority property resolves to 0. -/
theorem C5_priority_rule_witness :
    resolvePriority (CAAIssue.parse [99, 97]) = .ok 0 :=
  (C5_priority_rule (CAAIssue.parse [99, 97])).2.1 rfl

/-- C2 counterexample: the final sort iterates the intersection SET, whose
iteration order is hash-randomised; under the permissible iteration order
`[1, 0]` two equal-priority issuers come out in the reverse of their
original relative order, while the canonical execution keeps it, so the
output is not the stable sort of the original order. -/
theorem C2_counterexample :
    IsPermOf (List.range 2).reverse 2 ∧
    autoDiscoverWith RC2 (fun _ => idPerm) (fun k => (List.range k).reverse)
        [dC2] = .ok [[98, 46, 99, 97], [97, 46, 99, 97]] ∧
    auto_discover_server RC2 [dC2] = .ok [[97, 46, 99, 97], [98, 46, 99, 97]] ∧
    ([[98, 46, 99, 97], [97, 46, 99, 97]] : List Bytes) ≠
      [[97, 46, 99, 97], [98, 46, 99, 97]] :=
  ⟨by decide, rfl, rfl, by decide⟩

/-- C2 (amended): every successful result lists the identifiers of SOME
permutation of the intersection elements in ascending priority order; the
relative order of equal-priority issuers follows the set iteration order
and is not the original relative order in general. -/
theorem C2_sorted_output (R : Resolver) (σs : Nat → Nat → List Nat)
    (π : Nat → List Nat) (domains : List DnsName) (out : List Bytes)
    (hπ : ∀ n, IsPermOf (π n) n)
    (h : autoDiscoverWith R σs π domains = .ok out) :
    ∃ ls elems l,
      processDomains R σs 0 domains = .ok ls ∧
      intersectFold ls = some elems ∧
      l.Perm elems ∧
      out = l.map (fun i => i.issuer) ∧
      List.Sorted (fun a b : Issuer => a.priority ≤ b.priority) l ∧
      l ≠ [] := by
  rw [autoDiscoverWith] at h
  rcases hd : processDomains R σs 0 domains with e | ls
  · rw [hd] at h; simp at h
  · rw [hd] at h
    dsimp only at h
    rcases hi : intersectFold ls with _ | elems
    · rw [hi] at h; simp at h
    · rw [hi] at h
      dsimp only at h
      by_cases he : elems = []
      · rw [if_pos he] at h; simp at h
      · rw [if_neg he] at h
        have hperm : (sortedByPriority (applyPerm (π elems.length) elems)).Perm
            elems :=
          (perm_sortedByPriority _).trans
            (applyPerm_perm _ _ (hπ elems.length))
        refine ⟨ls, elems, sortedByPriority (applyPerm (π elems.length) elems),
          rfl, hi, hperm, ?_, sorted_sortedByPriority _, ?_⟩
        · have h₂ := Except.ok.inj h
          rw [← h₂, finalOutput]
        · intro hl
          rw [hl] at hperm
          exact he hperm.symm.eq_nil

/-- C2 witness: the amended statement at the concrete fixture with the
canonical iteration order. -/
theorem C2_sorted_output_witness :
    ∃ ls elems l,
      processDomains RC2 (fun _ => idPerm) 0 [dC2] = .ok ls ∧
      intersectFold ls = some elems ∧
      l.Perm elems ∧
      ([[97, 46, 99, 97], [98, 46, 99, 97]] : List Bytes) =
        l.map (fun i => i.issuer) ∧
      List.Sorted (fun a b : Issuer => a.priority ≤ b.priority) l ∧
      l ≠ [] :=
  C2_sorted_output RC2 (fun _ => idPerm) idPerm [dC2]
    [[97, 46, 99, 97], [98, 46, 99, 97]]
    (fun _ => List.Perm.refl _) rfl

/-- C6: records are partitioned by tag into the issuewild and issue
sub-lists in record order; a wildcard domain prefers a non-empty issuewild
sub-list and falls back to issue; a non-wildcard domain uses issue only; an
empty choice is exactly the no-CAA-records error; a record is dropped iff
its discovery property is present with a value other than the literal
`true`; and one issuer per surviving record is emitted in record order. -/
theorem C6_issuer_selection (wild : Bool) (rr : List CAARecord)
    (rel : List CAAIssue) :
    ((selectRelevant wild rr).isOk = false ↔
      (if wild then issueWildSet rr = [] ∧ issueSet rr = []
        else issueSet rr = [])) ∧
    ((selectRelevant wild rr).isOk = false →
      selectRelevant wild rr = .error .noCAARecordsError) ∧
    (wild = true → issueWildSet rr ≠ [] →
      selectRelevant wild rr = .ok (issueWildSet rr)) ∧
    (wild = true → issueWildSet rr = [] → issueSet rr ≠ [] →
      selectRelevant wild rr = .ok (issueSet rr)) ∧
    (wild = false → issueSet rr ≠ [] →
      selectRelevant wild rr = .ok (issueSet rr)) ∧
    (∀ r rr₁, issueWildSet (r :: rr₁) =
      if r.tag = issuewildTag then CAAIssue.parse r.value :: issueWildSet rr₁
      else issueWildSet rr₁) ∧
    (∀ r rr₁, issueSet (r :: rr₁) =
      if r.tag = issueTag then CAAIssue.parse r.value :: issueSet rr₁
      else issueSet rr₁) ∧
    ((∀ i ∈ rel, discoveryIncluded i = true → (resolvePriority i).isOk = true) →
      buildIssuers rel = .ok ((rel.filter discoveryIncluded).map
        (fun i => { issuer := i.issuer, priority := priorityOf i }))) ∧
    (∀ i : CAAIssue, discoveryIncluded i = false ↔
      ∃ v, dictFind? i.parameters discoveryKey = some v ∧ v ≠ some trueVal) := by
  refine ⟨?_, ?_, ?_, ?_, ?_, ?_, ?_, fun h => buildIssuers_eq_map rel h, ?_⟩
  · cases wild with
    | false =>
      by_cases h₂ : issueSet rr = []
      · simp [selectRelevant, h₂, Except.isOk, Except.toBool]
      · simp [selectRelevant, h₂, Except.isOk, Except.toBool]
    | true =>
      by_cases h₁ : issueWildSet rr = []
      · by_cases h₂ : issueSet rr = []
        · simp [selectRelevant, h₁, h₂, Except.isOk, Except.toBool]
        · simp [selectRelevant, h₁, h₂, Except.isOk, Except.toBool]
      · simp [selectRelevant, h₁, Except.isOk, Except.toBool]
  · intro h
    cases wild with
    | false =>
      by_cases h₂ : issueSet rr = []
      · simp [selectRelevant, h₂]
      · simp [selectRelevant, h₂, Except.isOk, Except.toBool] at h
    | true =>
      by_cases h₁ : issueWildSet rr = []
      · by_cases h₂ : issueSet rr = []
        · simp [selectRelevant, h₁, h₂]
        · simp [selectRelevant, h₁, h₂, Except.isOk, Except.toBool] at h
      · simp [selectRelevant, h₁, Except.isOk, Except.toBool] at h
  · intro hw h₁
    subst hw
    simp [selectRelevant, h₁]
  · intro hw h₁ h₂
    subst hw
    simp [selectRelevant, h₁, h₂]
  · intro hw h₂
    subst hw
    simp [selectRelevant, h₂]
  · intro r rr₁
    by_cases h : r.tag = issuewildTag
    · simp [issueWildSet, List.filter_cons, h]
    · simp [issueWildSet, List.filter_cons, h]
  · intro r rr₁
    by_cases h : r.tag = issueTag
    · simp [issueSet, List.filter_cons, h]
    · simp [issueSet, List.filter_cons, h]
  · intro i
    rcases h : dictFind? i.parameters discoveryKey with _ | v
    · simp [discoveryIncluded, CAAIssue.get_property, h]
    · simp [discoveryIncluded, CAAIssue.get_property, h]

/-- C6 witness: the emission conjunct at a one-record sub-list. -/
theorem C6_issuer_selection_witness :
    buildIssuers [CAAIssue.parse [99, 97]] =
      .ok (([CAAIssue.parse [99, 97]].filter discoveryIncluded).map
        (fun i => { issuer := i.issuer, priority := priorityOf i })) :=
  (C6_issuer_selection false [] [CAAIssue.parse [99, 97]]).2.2.2.2.2.2.2.1
    (by decide)

/-- C7: splitting on each semicolon is lossless and exhaustive; the issuer
is the stripped first segment; property segments split on the first `=`
only, with values free to contain `=` and a missing `=` stored as a null
value; a later assignment to the same name overwrites an earlier one (the
lookup is the last assignment); and parsing never fails, the empty input
giving an empty issuer and an empty property map. -/
theorem C7_parse (s : Bytes) (name : Bytes) :
    joinWithByte 59 (splitOnByte 59 s) = s ∧
    (∀ p ∈ splitOnByte 59 s, 59 ∉ p) ∧
    (CAAIssue.parse s).issuer = pyStrip ((splitOnByte 59 s).headI) ∧
    ((splitOnce 61 s = (s, none) ∧ 61 ∉ s) ∨
      (∃ a b, splitOnce 61 s = (a, some b) ∧ s = a ++ 61 :: b ∧ 61 ∉ a)) ∧
    dictFind? (CAAIssue.parse s).parameters name =
      lastAssign name ((splitOnByte 59 s).tail) ∧
    CAAIssue.parse [] = { issuer := [], parameters := [] } :=
  ⟨joinWithByte_splitOnByte 59 s, not_mem_splitOnByte 59 s, rfl,
    splitOnce_spec 61 s, dictFind?_parse s name, rfl⟩

/-- C7 witness: no split segment contains the separator, at a concrete
input. -/
theorem C7_parse_witness : (59 : Byte) ∉ ([97] : Bytes) :=
  (C7_parse [97, 59, 98] []).2.1 [97] (by decide)

/-- C8: for an all-ASCII identifier the mapper returns exactly
`https://` ++ lowercased identifier ++ `/.well-known/acme`; for any
identifier with a non-ASCII byte it fails with the invalid-encoding error;
it has no other failure mode; and the lowercased identifier contains no
uppercase ASCII letter. -/
theorem C8_directory_url (issuer : Bytes) :
    (issuer.all isAsciiByte = true →
      issuer_to_directory issuer =
        .ok ([104, 116, 116, 112, 115, 58, 47, 47] ++ issuer.map asciiLower ++
          [47, 46, 119, 101, 108, 108, 45, 107, 110, 111, 119, 110, 47,
            97, 99, 109, 101])) ∧
    (issuer.all isAsciiByte = false →
      issuer_to_directory issuer = .error .invalidIssuerEncodingError) ∧
    (issuer_to_directory issuer).isOk = issuer.all isAsciiByte ∧
    (∀ c ∈ issuer.map asciiLower, ¬ (65 ≤ c ∧ c ≤ 90)) := by
  refine ⟨?_, ?_, ?_, ?_⟩
  · intro h
    rw [issuer_to_directory, if_pos h]
    rfl
  · intro h
    rw [issuer_to_directory, if_neg (by simp [h])]
  · cases hb : issuer.all isAsciiByte
    · rw [issuer_to_directory, if_neg (by simp [hb])]
      rfl
    · rw [issuer_to_directory, if_pos hb]
      rfl
  · intro c hc
    rcases List.mem_map.mp hc with ⟨c₀, hc₀, rfl⟩
    rw [asciiLower]
    by_cases h : 65 ≤ c₀ ∧ c₀ ≤ 90
    · rw [if_pos h]
      rintro ⟨h₁, h₂⟩
      have h₅ : (97 : Nat) ≤ 90 :=
        le_trans (Nat.add_le_add_right h.1 32) h₂
      exact absurd h₅ (by decide)
    · rw [if_neg h]
      exact h

/-- C8 witness: the mapper at `b"LetsEncrypt.ORG"`, together with the
literal lowercase URL it produces. -/
theorem C8_directory_url_witness :
    issuer_to_directory
        [76, 101, 116, 115, 69, 110, 99, 114, 121, 112, 116, 46, 79, 82, 71] =
      .ok ([104, 116, 116, 112, 115, 58, 47, 47] ++
        [76, 101, 116, 115, 69, 110, 99, 114, 121, 112, 116, 46, 79, 82,
          71].map asciiLower ++
        [47, 46, 119, 101, 108, 108, 45, 107, 110, 111, 119, 110, 47,
          97, 99, 109, 101]) :=
  (C8_directory_url
    [76, 101, 116, 115, 69, 110, 99, 114, 121, 112, 116, 46, 79, 82, 71]).1
    (by decide)

/-- C9: with no requested domains the intersection accumulator stays
`None` and the call raises the no-common-issuers error rather than
returning an empty list; and every successful return is non-empty. -/
theorem C9_nonempty_result (R : Resolver) (σs : Nat → Nat → List Nat)
    (π : Nat → List Nat) (hπ : ∀ n, IsPermOf (π n) n) :
    autoDiscoverWith R σs π [] = .error .noCommonIssuersError ∧
    (∀ domains out, autoDiscoverWith R σs π domains = .ok out → out ≠ []) := by
  constructor
  · rfl
  · intro domains out h hout
    rw [autoDiscoverWith] at h
    rcases hd : processDomains R σs 0 domains with e | ls
    · rw [hd] at h; simp at h
    · rw [hd] at h
      dsimp only at h
      rcases hi : intersectFold ls with _ | elems
      · rw [hi] at h; simp at h
      · rw [hi] at h
        dsimp only at h
        by_cases he : elems = []
        · rw [if_pos he] at h; simp at h
        · rw [if_neg he] at h
          have h₂ := Except.ok.inj h
          rw [hout, finalOutput] at h₂
          have hnil : sortedByPriority (applyPerm (π elems.length) elems) = [] :=
            List.map_eq_nil_iff.mp h₂
          have hperm : (sortedByPriority
              (applyPerm (π elems.length) elems)).Perm elems :=
            (perm_sortedByPriority _).trans
              (applyPerm_perm _ _ (hπ elems.length))
          rw [hnil] at hperm
          exact he hperm.symm.eq_nil

/-- C9 witness: the empty-domain-list case at a concrete resolver. -/
theorem C9_nonempty_result_witness :
    autoDiscoverWith (fun _ => Except.ok []) (fun _ => idPerm) idPerm [] =
      .error .noCommonIssuersError :=
  (C9_nonempty_result (fun _ => Except.ok []) (fun _ => idPerm) idPerm
    (fun _ => List.Perm.refl _)).1

/-- C10: a non-empty sub-list whose records are all excluded by the
discovery filter builds an empty issuer list without error; the main loop
then continues with the remaining domains (their results, or their errors,
still surface); and a run in which some domain contributed an empty list
ends with the no-common-issuers error, not the no-CAA-records error. -/
theorem C10_filtered_domain_continues (R : Resolver)
    (σs : Nat → Nat → List Nat) (π : Nat → List Nat) (rel : List CAAIssue)
    (i : Nat) (d : DnsName) (ds : List DnsName) :
    (rel ≠ [] → (∀ j ∈ rel, discoveryIncluded j = false) →
      buildIssuers rel = .ok []) ∧
    (∀ ls, processDomain R (σs i) d = .ok [] →
      processDomains R σs (i + 1) ds = .ok ls →
      processDomains R σs i (d :: ds) = .ok ([] :: ls)) ∧
    (∀ e, processDomain R (σs i) d = .ok [] →
      processDomains R σs (i + 1) ds = .error e →
      processDomains R σs i (d :: ds) = .error e) ∧
    (∀ domains ls, processDomains R σs 0 domains = .ok ls → [] ∈ ls →
      autoDiscoverWith R σs π domains = .error .noCommonIssuersError) := by
  refine ⟨?_, ?_, ?_, ?_⟩
  · intro hne hall
    have hgen : ∀ rel₁ : List CAAIssue,
        (∀ j ∈ rel₁, discoveryIncluded j = false) →
        buildIssuers rel₁ = .ok [] := by
      intro rel₁ h
      induction rel₁ with
      | nil => rfl
      | cons j rest ih =>
        have hj : discoveryIncluded j = false := h j (List.mem_cons_self _ _)
        rw [buildIssuers, if_neg (by simp [hj])]
        exact ih (fun j₁ hj₁ => h j₁ (List.mem_cons_of_mem j hj₁))
    exact hgen rel hall
  · intro ls h₁ h₂
    rw [processDomains, h₁, h₂]
  · intro e h₁ h₂
    rw [processDomains, h₁, h₂]
  · intro domains ls h hmem
    rw [autoDiscoverWith, h]
    have hif : intersectFold ls = some [] := by
      cases ls with
      | nil => simp at hmem
      | cons l₀ rest =>
        rw [intersectFold]
        rcases List.mem_cons.mp hmem with h₀ | h₀
        · rw [← h₀]
          rw [show dedupByIssuer [] = [] from rfl, foldl_pyIntersectList_nil]
        · rw [foldl_pyIntersectList_of_mem_nil rest _ h₀]
    dsimp only
    rw [hif]
    dsimp only
    rw [if_pos rfl]

/-- C10 witness: the all-filtered conjunct at the concrete record
`b"ca;discovery=false"`. -/
theorem C10_filtered_domain_continues_witness :
    buildIssuers [CAAIssue.parse
        [99, 97, 59, 100, 105, 115, 99, 111, 118, 101, 114, 121, 61,
          102, 97, 108, 115, 101]] = .ok [] :=
  (C10_filtered_domain_continues (fun _ => Except.ok []) (fun _ => idPerm)
    idPerm
    [CAAIssue.parse
      [99, 97, 59, 100, 105, 115, 99, 111, 118, 101, 114, 121, 61,
        102, 97, 108, 115, 101]] 0 [] []).1 (by decide) (by decide)

end Claims

end AutoServer
